import Mathlib

/-!
# Verification of the tour-generation backend

Shallow embedding of the core of the walking-tour backend
(`app/services/ai_service.py`, `app/services/tour_service.py`,
`app/utils/transcript_generator.py`) and proofs about it.

Modelling conventions:
* Python strings are `List Char`; Python ints are `Nat`/`Int`.
* Python floats are modelled exactly: as `ℚ` where only ring operations and
  rounding occur, and as `ℝ` for the trigonometric geodesic code.  Constant
  float expressions evaluated by Python (such as `int(4000*0.6) = 2400`) are
  inlined with their IEEE-754 values.
* Fallible external calls (LLM providers, the TTS provider, the database)
  enter as oracle parameters of type `Except`/`Bool`; the functions under
  scrutiny are deterministic in those outcomes, exactly as the Python code is.
-/

set_option maxHeartbeats 1000000
set_option maxRecDepth 16000

/-! ## Python string primitives -/

/-- The character class stripped by Python `str.strip()` (ASCII whitespace;
the non-ASCII Unicode spaces behave identically with respect to every
statement below, which only uses the set through `pyStrip`). -/
def pyIsSpace (c : Char) : Bool :=
  c = ' ' || c = '\t' || c = '\n' || c = '\r' || c = Char.ofNat 11 || c = Char.ofNat 12

/-- Python `str.strip()`: drop leading and trailing whitespace. -/
def pyStrip (l : List Char) : List Char :=
  ((l.dropWhile pyIsSpace).reverse.dropWhile pyIsSpace).reverse

/-- Python `str.rfind(c)` for a one-character needle: the greatest index at
which `c` occurs, `-1` when it does not occur. -/
def pyRFindChar (l : List Char) (c : Char) : Int :=
  match l with
  | [] => -1
  | a :: rest =>
    if 0 ≤ pyRFindChar rest c then pyRFindChar rest c + 1
    else if a = c then 0 else -1

/-- Python `str.rfind(sub)` for a substring needle (used with `"\n\n"`): the
greatest index at which `sub` starts, `-1` when it does not occur. -/
def pyRFindSub (l sub : List Char) : Int :=
  match l with
  | [] => if sub.isEmpty then 0 else -1
  | a :: rest =>
    if 0 ≤ pyRFindSub rest sub then pyRFindSub rest sub + 1
    else if sub.isPrefixOf (a :: rest) then 0 else -1

/-- The non-whitespace characters of a string, in order.  "Accounting for all
characters up to boundary whitespace trimming" is phrased below as equality
of `nonSpace` images. -/
def nonSpace (l : List Char) : List Char :=
  l.filter (fun c => !pyIsSpace c)

theorem pyStrip_length_le (l : List Char) : (pyStrip l).length ≤ l.length := by
  have h1 : (l.dropWhile pyIsSpace).length ≤ l.length :=
    (List.dropWhile_sublist pyIsSpace).length_le
  have h2 : ((l.dropWhile pyIsSpace).reverse.dropWhile pyIsSpace).length ≤
      (l.dropWhile pyIsSpace).reverse.length :=
    (List.dropWhile_sublist pyIsSpace).length_le
  simp only [List.length_reverse] at h2
  simpa [pyStrip] using le_trans h2 h1

theorem nonSpace_dropWhile (l : List Char) :
    nonSpace (l.dropWhile pyIsSpace) = nonSpace l := by
  induction l with
  | nil => rfl
  | cons a rest ih =>
    by_cases h : pyIsSpace a
    · simpa [nonSpace, List.dropWhile_cons, h] using ih
    · simp [nonSpace, List.dropWhile_cons, h]

theorem nonSpace_reverse (l : List Char) :
    nonSpace l.reverse = (nonSpace l).reverse := by
  simp [nonSpace, List.filter_reverse]

theorem nonSpace_pyStrip (l : List Char) : nonSpace (pyStrip l) = nonSpace l := by
  unfold pyStrip
  rw [nonSpace_reverse, nonSpace_dropWhile, nonSpace_reverse, List.reverse_reverse,
    nonSpace_dropWhile]

theorem nonSpace_append (l₁ l₂ : List Char) :
    nonSpace (l₁ ++ l₂) = nonSpace l₁ ++ nonSpace l₂ := by
  simp [nonSpace, List.filter_append]

theorem pyRFindChar_lt_length (l : List Char) (c : Char) :
    pyRFindChar l c < l.length := by
  induction l with
  | nil => simp [pyRFindChar]
  | cons a rest ih =>
    simp only [pyRFindChar, List.length_cons]
    split
    · push_cast; omega
    · split <;> push_cast <;> omega

theorem pyRFindChar_neg_one_le (l : List Char) (c : Char) :
    -1 ≤ pyRFindChar l c := by
  induction l with
  | nil => simp [pyRFindChar]
  | cons a rest ih =>
    simp only [pyRFindChar]
    split
    · omega
    · split <;> omega

theorem pyRFindSub_add_le (l sub : List Char) (hsub : sub ≠ [])
    (h : 0 ≤ pyRFindSub l sub) : pyRFindSub l sub + sub.length ≤ l.length := by
  induction l with
  | nil =>
    simp only [pyRFindSub, List.isEmpty_iff] at h ⊢
    rw [if_neg hsub] at h ⊢
    omega
  | cons a rest ih =>
    by_cases hr : 0 ≤ pyRFindSub rest sub
    · have := ih hr
      simp only [pyRFindSub, if_pos hr, List.length_cons]
      push_cast
      omega
    · by_cases hpre : sub.isPrefixOf (a :: rest)
      · have hlen : sub.length ≤ (a :: rest).length :=
          (List.isPrefixOf_iff_prefix.mp hpre).length_le
        simp only [pyRFindSub, if_neg hr, if_pos hpre, List.length_cons]
        simp only [List.length_cons] at hlen
        push_cast
        omega
      · simp only [pyRFindSub, if_neg hr, if_neg hpre] at h
        omega

/-! ## `TourService._chunk_text_for_tts` (speech-generator chunking) -/

/-- The hard TTS character limit: the Python default `max_chunk_size = 4000`,
which is also the only value the callers pass. -/
def ttsMaxChunk : Nat := 4000

/-- Split-point selection inside the loop of `TourService._chunk_text_for_tts`
for one window `chunk = remaining_text[:4000]`: latest sentence terminator
(`.` `!` `?`) after 60% of the chunk, else the last paragraph break (`"\n\n"`)
after 50%, else the last word boundary (space) after 80%, else a hard cut.
The Python float expressions evaluate to `int(4000*0.6) = 2400`,
`int(4000*0.5) = 2000`, `int(4000*0.8) = 3200` exactly. -/
def chunkSplitPoint (chunk : List Char) : Nat :=
  if 2400 < max (pyRFindChar chunk '.') (max (pyRFindChar chunk '!') (pyRFindChar chunk '?'))
  then (max (pyRFindChar chunk '.') (max (pyRFindChar chunk '!') (pyRFindChar chunk '?')) + 1).toNat
  else if 2000 < pyRFindSub chunk ['\n', '\n'] then (pyRFindSub chunk ['\n', '\n'] + 2).toNat
  else if 3200 < pyRFindChar chunk ' ' then (pyRFindChar chunk ' ').toNat
  else ttsMaxChunk

theorem chunkSplitPoint_pos (chunk : List Char) : 1 ≤ chunkSplitPoint chunk := by
  unfold chunkSplitPoint
  split
  · next h => omega
  · split
    · next h => omega
    · split
      · next h => omega
      · simp [ttsMaxChunk]

theorem chunkSplitPoint_le (chunk : List Char) (h : chunk.length ≤ ttsMaxChunk) :
    chunkSplitPoint chunk ≤ ttsMaxChunk := by
  have hp := pyRFindChar_lt_length chunk '.'
  have he := pyRFindChar_lt_length chunk '!'
  have hq := pyRFindChar_lt_length chunk '?'
  have hs := pyRFindChar_lt_length chunk ' '
  unfold chunkSplitPoint
  split
  · next hmax =>
    simp only [ttsMaxChunk] at *
    omega
  · split
    · next hnl =>
      have := pyRFindSub_add_le chunk ['\n', '\n'] (by simp) (by omega)
      simp only [List.length_cons, List.length_nil, ttsMaxChunk] at *
      omega
    · split
      · next hsp =>
        simp only [ttsMaxChunk] at *
        omega
      · exact le_refl _

/-- The `while remaining_text:` loop of `TourService._chunk_text_for_tts`. -/
def chunkLoop (remaining : List Char) : List (List Char) :=
  if remaining = [] then []
  else if remaining.length ≤ ttsMaxChunk then [remaining]
  else
    pyStrip (remaining.take (chunkSplitPoint (remaining.take ttsMaxChunk))) ::
      chunkLoop (pyStrip (remaining.drop (chunkSplitPoint (remaining.take ttsMaxChunk))))
termination_by remaining.length
decreasing_by
  have h1 := chunkSplitPoint_pos (remaining.take ttsMaxChunk)
  have h2 := pyStrip_length_le (remaining.drop (chunkSplitPoint (remaining.take ttsMaxChunk)))
  simp only [List.length_drop] at h2
  omega

/-- `TourService._chunk_text_for_tts` at the default (and only used)
`max_chunk_size = 4000`: short text is returned as a single chunk, long text
goes through the splitting loop and empty chunks are filtered out. -/
def chunk_text_for_tts (text : List Char) : List (List Char) :=
  if text.length ≤ ttsMaxChunk then [text]
  else (chunkLoop text).filter (fun c => !c.isEmpty)

theorem chunkLoop_length_le (n : Nat) :
    ∀ remaining : List Char, remaining.length ≤ n →
      ∀ c ∈ chunkLoop remaining, c.length ≤ ttsMaxChunk := by
  induction n with
  | zero =>
    intro r hr c hc
    have : r = [] := List.length_eq_zero.mp (Nat.le_zero.mp hr)
    subst this
    rw [chunkLoop] at hc
    simp at hc
  | succ n ih =>
    intro r hr c hc
    rw [chunkLoop] at hc
    by_cases h0 : r = []
    · simp [h0] at hc
    · rw [if_neg h0] at hc
      by_cases h1 : r.length ≤ ttsMaxChunk
      · rw [if_pos h1] at hc
        simp at hc
        simpa [hc] using h1
      · rw [if_neg h1] at hc
        have hsp1 := chunkSplitPoint_pos (r.take ttsMaxChunk)
        have hsple := chunkSplitPoint_le (r.take ttsMaxChunk) (by simp [List.length_take])
        rcases List.mem_cons.mp hc with hc | hc
        · subst hc
          calc (pyStrip (r.take (chunkSplitPoint (r.take ttsMaxChunk)))).length
              ≤ (r.take (chunkSplitPoint (r.take ttsMaxChunk))).length := pyStrip_length_le _
            _ ≤ chunkSplitPoint (r.take ttsMaxChunk) := by simp [List.length_take]
            _ ≤ ttsMaxChunk := hsple
        · refine ih (pyStrip (r.drop (chunkSplitPoint (r.take ttsMaxChunk)))) ?_ c hc
          have := pyStrip_length_le (r.drop (chunkSplitPoint (r.take ttsMaxChunk)))
          simp only [List.length_drop] at this
          omega

theorem chunkLoop_nonSpace (n : Nat) :
    ∀ remaining : List Char, remaining.length ≤ n →
      nonSpace (chunkLoop remaining).flatten = nonSpace remaining := by
  induction n with
  | zero =>
    intro r hr
    have : r = [] := List.length_eq_zero.mp (Nat.le_zero.mp hr)
    subst this
    rw [chunkLoop]
    simp
  | succ n ih =>
    intro r hr
    rw [chunkLoop]
    by_cases h0 : r = []
    · simp [h0]
    · rw [if_neg h0]
      by_cases h1 : r.length ≤ ttsMaxChunk
      · rw [if_pos h1]
        simp
      · rw [if_neg h1]
        have hsp1 := chunkSplitPoint_pos (r.take ttsMaxChunk)
        have hrec : nonSpace (chunkLoop
            (pyStrip (r.drop (chunkSplitPoint (r.take ttsMaxChunk))))).flatten =
            nonSpace (pyStrip (r.drop (chunkSplitPoint (r.take ttsMaxChunk)))) := by
          refine ih _ ?_
          have := pyStrip_length_le (r.drop (chunkSplitPoint (r.take ttsMaxChunk)))
          simp only [List.length_drop] at this
          omega
        rw [List.flatten_cons, nonSpace_append, hrec, nonSpace_pyStrip, nonSpace_pyStrip,
          ← nonSpace_append, List.take_append_drop]

theorem flatten_filter_not_isEmpty (xs : List (List Char)) :
    (xs.filter (fun c => !c.isEmpty)).flatten = xs.flatten := by
  induction xs with
  | nil => rfl
  | cons a rest ih =>
    by_cases h : a.isEmpty
    · have : a = [] := List.isEmpty_iff.mp h
      simp [List.filter_cons, h, this, ih]
    · simp [List.filter_cons, h, ih]

/-- **C4**: every chunk produced by `_chunk_text_for_tts` has length at most
the hard limit 4000, and the concatenation of the chunks accounts for every
character of the input text up to whitespace trimmed at chunk boundaries:
the sequences of non-whitespace characters coincide exactly (so no
non-whitespace character is lost or duplicated).  The split-point preference
cascade (sentence terminator after 60%, paragraph break after 50%, word
boundary after 80%, hard cut) is the definition `chunkSplitPoint`. -/
theorem chunk_text_for_tts_correct (text : List Char) :
    (∀ c ∈ chunk_text_for_tts text, c.length ≤ 4000) ∧
    nonSpace (chunk_text_for_tts text).flatten = nonSpace text := by
  unfold chunk_text_for_tts
  by_cases h : text.length ≤ ttsMaxChunk
  · rw [if_pos h]
    constructor
    · intro c hc
      simp at hc
      subst hc
      simpa [ttsMaxChunk] using h
    · simp
  · rw [if_neg h]
    constructor
    · intro c hc
      have hc' : c ∈ chunkLoop text := List.mem_of_mem_filter hc
      simpa [ttsMaxChunk] using chunkLoop_length_le text.length text (le_refl _) c hc'
    · rw [flatten_filter_not_isEmpty]
      exact chunkLoop_nonSpace text.length text (le_refl _)

/-! ## `TourService._truncate_for_tts` (preview truncation)

Python's leading underscore on private method names is dropped in the Lean
names throughout this file. -/

theorem pyRFindChar_eq_neg_one (l : List Char) (c : Char) (h : c ∉ l) :
    pyRFindChar l c = -1 := by
  induction l with
  | nil => rfl
  | cons a rest ih =>
    have hrest : c ∉ rest := fun hm => h (List.mem_cons_of_mem _ hm)
    have hac : ¬ a = c := fun hac => h (by simp [hac])
    simp [pyRFindChar, ih hrest, hac]

theorem pyRFindChar_eq_of (l : List Char) (c : Char) :
    ∀ i : Nat, l[i]? = some c → c ∉ l.drop (i + 1) → pyRFindChar l c = i := by
  induction l with
  | nil => intro i h _; simp at h
  | cons a rest ih =>
    intro i hget hnot
    cases i with
    | zero =>
      have ha : a = c := by simpa using hget
      have : c ∉ rest := by simpa using hnot
      simp [pyRFindChar, pyRFindChar_eq_neg_one rest c this, ha]
    | succ i =>
      have hget' : rest[i]? = some c := by simpa using hget
      have hnot' : c ∉ rest.drop (i + 1) := by simpa using hnot
      have := ih i hget' hnot'
      simp only [pyRFindChar, this]
      have : (0:Int) ≤ (i:Int) := by omega
      rw [if_pos this]
      push_cast
      ring

theorem pyRFindChar_le_of (l : List Char) (c : Char) :
    ∀ k : Nat, c ∉ l.drop (k + 1) → pyRFindChar l c ≤ k := by
  induction l with
  | nil => intro k _; simp only [pyRFindChar]; omega
  | cons a rest ih =>
    intro k hnot
    cases k with
    | zero =>
      have : c ∉ rest := by simpa using hnot
      simp [pyRFindChar, pyRFindChar_eq_neg_one rest c this]
      split <;> omega
    | succ k =>
      have hnot' : c ∉ rest.drop (k + 1) := by simpa using hnot
      have hle := ih k hnot'
      simp only [pyRFindChar]
      split
      · push_cast; omega
      · split <;> push_cast <;> omega

/-- `TourService._truncate_for_tts`: trim to the 4000-character TTS budget
(`max_len = 4000`) and, when the text was longer, backtrack to the position
just after the last `'.'` of the slice provided that `'.'` occurs strictly
after index `int(4000 * 0.8) = 3200`. -/
def truncate_for_tts (text : List Char) : List Char :=
  if 4000 < text.length then
    if 3200 < pyRFindChar (text.take 4000) '.'
    then (text.take 4000).take ((pyRFindChar (text.take 4000) '.') + 1).toNat
    else text.take 4000
  else text.take 4000

/-- The truncation procedure as claim C9 words it (comparison point, modelled
from the spec's words): trim to the threshold and backtrack to just after the
last *sentence terminator* — the spec's terminator set `.` `!` `?` — provided
it lies within the final 20% of the truncated slice (index at least 3200). -/
def truncateForTTSSpec (text : List Char) : List Char :=
  if 4000 < text.length then
    if 3200 ≤ max (pyRFindChar (text.take 4000) '.')
        (max (pyRFindChar (text.take 4000) '!') (pyRFindChar (text.take 4000) '?'))
    then (text.take 4000).take ((max (pyRFindChar (text.take 4000) '.')
        (max (pyRFindChar (text.take 4000) '!') (pyRFindChar (text.take 4000) '?'))) + 1).toNat
    else text.take 4000
  else text.take 4000

/-- The concrete input refuting C9 as stated: 3600 `'a'`s, one `'!'`, then
401 more characters; total length 4001. -/
def c9Input : List Char :=
  (List.replicate 3600 'a' ++ '!' :: List.replicate 399 'a') ++ ['b']

theorem c9Input_take :
    c9Input.take 4000 = List.replicate 3600 'a' ++ '!' :: List.replicate 399 'a' := by
  have hA : (List.replicate 3600 'a' ++ '!' :: List.replicate 399 'a').length = 4000 := by
    simp only [List.length_append, List.length_replicate, List.length_cons]
  unfold c9Input
  rw [← hA]
  exact List.take_left _ _

theorem c9Input_mem (c : Char) (h : c ∈ c9Input.take 4000) : c = 'a' ∨ c = '!' := by
  rw [c9Input_take] at h
  rcases List.mem_append.mp h with h | h
  · exact Or.inl (List.mem_replicate.mp h).2
  · rcases List.mem_cons.mp h with h | h
    · exact Or.inr h
    · exact Or.inl (List.mem_replicate.mp h).2

theorem c9Input_no_period : '.' ∉ c9Input.take 4000 := by
  intro h
  rcases c9Input_mem '.' h with h | h <;> exact absurd h (by decide)

theorem c9Input_bang :
    pyRFindChar (c9Input.take 4000) '!' = 3600 := by
  rw [c9Input_take]
  apply pyRFindChar_eq_of _ _ 3600
  · rw [List.getElem?_append_right (by simp only [List.length_replicate]; exact le_refl _)]
    simp only [List.length_replicate, Nat.sub_self, List.getElem?_cons_zero]
  · have h := @List.drop_append _ (List.replicate 3600 'a')
      ('!' :: List.replicate 399 'a') 1
    simp only [List.length_replicate] at h
    rw [h]
    intro hm
    have hm2 : '!' ∈ List.replicate 399 'a' := hm
    exact absurd (List.mem_replicate.mp hm2).2 (by decide)

/-- **C9, counterexample**: on `c9Input` the code keeps the whole
4000-character slice (it only ever looks for `'.'`), while the claim's
truncation — last sentence terminator `.`/`!`/`?` within the final 20% —
would cut just after the `'!'` at index 3600.  The two outputs differ. -/
theorem truncate_for_tts_claim_false :
    truncate_for_tts c9Input ≠ truncateForTTSSpec c9Input := by
  have hlen : c9Input.length = 4001 := by
    simp only [c9Input, List.length_append, List.length_replicate, List.length_cons,
      List.length_nil]
  have hdot : pyRFindChar (c9Input.take 4000) '.' = -1 :=
    pyRFindChar_eq_neg_one _ _ c9Input_no_period
  have hq : pyRFindChar (c9Input.take 4000) '?' ≤ 3200 := by
    have h32 := pyRFindChar_le_of (c9Input.take 4000) '?' 3200 (by
      intro hmem
      have hmem' := List.mem_of_mem_drop hmem
      rcases c9Input_mem '?' hmem' with h | h <;> exact absurd h (by decide))
    exact_mod_cast h32
  have hcode : truncate_for_tts c9Input = c9Input.take 4000 := by
    unfold truncate_for_tts
    rw [if_pos (by omega), hdot, if_neg (by omega)]
  have hspec : truncateForTTSSpec c9Input = (c9Input.take 4000).take 3601 := by
    unfold truncateForTTSSpec
    rw [if_pos (by omega), hdot, c9Input_bang]
    have hmax : max (-1 : Int) (max 3600 (pyRFindChar (c9Input.take 4000) '?')) = 3600 := by
      have := pyRFindChar_neg_one_le (c9Input.take 4000) '?'
      omega
    rw [hmax, if_pos (by omega)]
    have h36 : ((3600 : Int) + 1).toNat = 3601 := by omega
    rw [h36]
  intro heq
  rw [hcode, hspec] at heq
  have hlenEq := congrArg List.length heq
  rw [List.length_take, List.length_take, List.length_take, hlen] at hlenEq
  omega

/-- **C9, amended**: the code backtracks only to the last *period* `'.'`, and
only when that period lies *strictly* after index 3200 of the 4000-character
slice.  With that amendment: text at or below the threshold is returned
unchanged; if the last `'.'` of the slice sits at an index `i > 3200` the
result is the slice cut just after it; and if no `'.'` occurs after index
3200 the result is the full 4000-character slice. -/
theorem truncate_for_tts_amended (text : List Char) :
    (text.length ≤ 4000 → truncate_for_tts text = text) ∧
    (∀ i : Nat, 4000 < text.length → 3200 < i → (text.take 4000)[i]? = some '.' →
      '.' ∉ (text.take 4000).drop (i + 1) →
      truncate_for_tts text = (text.take 4000).take (i + 1)) ∧
    (4000 < text.length → '.' ∉ (text.take 4000).drop 3201 →
      truncate_for_tts text = text.take 4000) := by
  refine ⟨?_, ?_, ?_⟩
  · intro h
    unfold truncate_for_tts
    rw [if_neg (by omega), List.take_of_length_le h]
  · intro i hlen hi hget hnot
    have hfind : pyRFindChar (text.take 4000) '.' = i := pyRFindChar_eq_of _ _ i hget hnot
    unfold truncate_for_tts
    rw [if_pos hlen, hfind, if_pos (by omega)]
    have htn : ((i:Int) + 1).toNat = i + 1 := by omega
    rw [htn]
  · intro hlen hnot
    have hle : pyRFindChar (text.take 4000) '.' ≤ 3200 := pyRFindChar_le_of _ _ 3200 hnot
    unfold truncate_for_tts
    rw [if_pos hlen, if_neg (by omega)]

/-- Concrete input exercising the backtracking branch of the amended C9:
a `'.'` at index 3300 of the 4000-character slice, total length 4001. -/
def c9wInput : List Char :=
  (List.replicate 3300 'a' ++ '.' :: List.replicate 699 'a') ++ ['b']

theorem c9wInput_take :
    c9wInput.take 4000 = List.replicate 3300 'a' ++ '.' :: List.replicate 699 'a' := by
  have hA : (List.replicate 3300 'a' ++ '.' :: List.replicate 699 'a').length = 4000 := by
    simp only [List.length_append, List.length_replicate, List.length_cons]
  unfold c9wInput
  rw [← hA]
  exact List.take_left _ _

theorem c9wInput_length : c9wInput.length = 4001 := by
  simp only [c9wInput, List.length_append, List.length_replicate, List.length_cons,
    List.length_nil]

theorem c9wInput_get : (c9wInput.take 4000)[3300]? = some '.' := by
  rw [c9wInput_take]
  rw [List.getElem?_append_right (by simp only [List.length_replicate]; exact le_refl _)]
  simp only [List.length_replicate, Nat.sub_self, List.getElem?_cons_zero]

theorem c9wInput_drop : '.' ∉ (c9wInput.take 4000).drop (3300 + 1) := by
  rw [c9wInput_take]
  have h := @List.drop_append _ (List.replicate 3300 'a')
    ('.' :: List.replicate 699 'a') 1
  simp only [List.length_replicate] at h
  rw [h]
  intro hm
  have hm2 : '.' ∈ List.replicate 699 'a' := hm
  exact absurd (List.mem_replicate.mp hm2).2 (by decide)

/-- Witness for the amended C9, at a concrete input with a late period. -/
theorem truncate_for_tts_amended_witness :
    (4000 < c9wInput.length ∧ 3200 < 3300 ∧
      (c9wInput.take 4000)[3300]? = some '.' ∧
      '.' ∉ (c9wInput.take 4000).drop (3300 + 1)) ∧
    truncate_for_tts c9wInput = (c9wInput.take 4000).take (3300 + 1) := by
  have hlen : 4000 < c9wInput.length := by rw [c9wInput_length]; omega
  exact ⟨⟨hlen, by omega, c9wInput_get, c9wInput_drop⟩,
    (truncate_for_tts_amended c9wInput).2.1 3300 hlen (by omega) c9wInput_get c9wInput_drop⟩

/-! ## `TourService._calculate_walking_distance` and
`TourService._validate_walking_feasibility` (geodesic math)

Python floats are modelled as real numbers here; `float('inf')` — returned
for the `(0, 0)` failed-geocoding sentinel — is modelled as `none`. -/

/-- The coordinate-bearing dictionary shape read by
`_calculate_walking_distance`: `loc1` is read through `coordinates` or the
`latitude`/`longitude` keys, `loc2` through `lat`/`lng`; missing keys default
to `0` (Python `.get(…, 0)`). -/
structure PyLocDict where
  coordinates : Option (ℝ × ℝ) := none
  latitude : Option ℝ := none
  longitude : Option ℝ := none
  lat : Option ℝ := none
  lng : Option ℝ := none

/-- Coordinate extraction for the first argument of
`_calculate_walking_distance`. -/
def loc1Coords (d : PyLocDict) : ℝ × ℝ :=
  match d.coordinates with
  | some p => p
  | none => (d.latitude.getD 0, d.longitude.getD 0)

/-- Coordinate extraction for the second argument of
`_calculate_walking_distance` (`lat`/`lng` keys). -/
def loc2Coords (d : PyLocDict) : ℝ × ℝ :=
  (d.lat.getD 0, d.lng.getD 0)

/-- The Haversine body of `_calculate_walking_distance`:
`radians` conversion, `a = sin²(Δlat/2) + cos·cos·sin²(Δlon/2)`,
`c = 2·asin(√a)`, Earth radius `r = 6371` km, result in metres. -/
noncomputable def haversineMeters (lat1 lon1 lat2 lon2 : ℝ) : ℝ :=
  2 * Real.arcsin (Real.sqrt
    (Real.sin ((lat2 * (Real.pi / 180) - lat1 * (Real.pi / 180)) / 2) ^ 2 +
      Real.cos (lat1 * (Real.pi / 180)) * Real.cos (lat2 * (Real.pi / 180)) *
        Real.sin ((lon2 * (Real.pi / 180) - lon1 * (Real.pi / 180)) / 2) ^ 2)) *
    6371 * 1000

open Classical in
/-- `TourService._calculate_walking_distance`; `none` models the
`float('inf')` returned when either endpoint carries the `(0, 0)` sentinel of
failed geocoding. -/
noncomputable def calculate_walking_distance (l1 l2 : PyLocDict) : Option ℝ :=
  if ((loc1Coords l1).1 = 0 ∧ (loc1Coords l1).2 = 0) ∨
      ((loc2Coords l2).1 = 0 ∧ (loc2Coords l2).2 = 0) then none
  else some (haversineMeters (loc1Coords l1).1 (loc1Coords l1).2
    (loc2Coords l2).1 (loc2Coords l2).2)

/-- The location dictionary of the origin `(0, 0)`, first-argument shape. -/
def originLoc1 : PyLocDict := { latitude := some 0, longitude := some 0 }

/-- The origin `(0, 0)` in the second-argument (`lat`/`lng`) shape. -/
def originLoc2 : PyLocDict := { lat := some 0, lng := some 0 }

/-- **C7, counterexample**: the claim "for every point `P` the walking
distance from `P` to `P` equals 0" fails at `P = (0, 0)`, where the code
returns `float('inf')` (the failed-geocoding sentinel), not `0`. -/
theorem calculate_walking_distance_claim_false :
    calculate_walking_distance originLoc1 originLoc2 ≠ some 0 := by
  unfold calculate_walking_distance
  rw [if_pos]
  · simp
  · left
    constructor <;> simp [loc1Coords, originLoc1]

/-- **C7, amended**: for every point `P` other than the `(0, 0)` sentinel —
in either dictionary shape — the Haversine walking distance (Earth radius
6 371 000 m) from `P` to `P` is `0`. -/
theorem calculate_walking_distance_self (l1 l2 : PyLocDict) (lat lon : ℝ)
    (h1 : loc1Coords l1 = (lat, lon)) (h2 : loc2Coords l2 = (lat, lon))
    (h : ¬ (lat = 0 ∧ lon = 0)) :
    calculate_walking_distance l1 l2 = some 0 := by
  unfold calculate_walking_distance
  rw [h1, h2, if_neg (by simpa using fun hc => h hc)]
  have : haversineMeters lat lon lat lon = 0 := by
    unfold haversineMeters
    simp [sub_self]
  rw [this]

/-- Witness for the amended C7, at the concrete point `(1, 2)`. -/
theorem calculate_walking_distance_self_witness :
    loc1Coords { latitude := some 1, longitude := some 2 } = ((1 : ℝ), (2 : ℝ)) ∧
    loc2Coords { lat := some 1, lng := some 2 } = ((1 : ℝ), (2 : ℝ)) ∧
    ¬ ((1 : ℝ) = 0 ∧ (2 : ℝ) = 0) ∧
    calculate_walking_distance { latitude := some 1, longitude := some 2 }
      { lat := some 1, lng := some 2 } = some 0 := by
  refine ⟨rfl, rfl, fun hc => one_ne_zero hc.1, ?_⟩
  exact calculate_walking_distance_self _ _ 1 2 rfl rfl (fun hc => one_ne_zero hc.1)

/-- The leg distances accumulated by `_validate_walking_feasibility`:
consecutive-pair distances with `float('inf')` legs (failed geocoding)
skipped, in route order. -/
noncomputable def resolvedLegDistances : List PyLocDict → List ℝ
  | a :: b :: rest =>
    match calculate_walking_distance a b with
    | some d => d :: resolvedLegDistances (b :: rest)
    | none => resolvedLegDistances (b :: rest)
  | _ => []

/-- Python `max(leg_distances) if leg_distances else 0`. -/
noncomputable def pyMaxD (l : List ℝ) : ℝ :=
  match l with
  | [] => 0
  | a :: rest => rest.foldl max a

/-- The result dictionary of `_validate_walking_feasibility`.  (In the
`len < 2` early return the Python dictionary omits the average and
walking-time keys; those fields are defaulted to `0` here.) -/
structure FeasibilityResult where
  is_feasible : Prop
  total_distance : ℝ
  max_leg_distance : ℝ
  average_leg_distance : ℝ
  estimated_walking_time_minutes : ℝ

open Classical in
/-- `TourService._validate_walking_feasibility` (default
`max_total_distance = 2000`, hard-coded 500 m maximum leg). -/
noncomputable def validate_walking_feasibility (route : List PyLocDict)
    (maxTotal : ℝ := 2000) : FeasibilityResult :=
  if route.length < 2 then
    { is_feasible := True, total_distance := 0, max_leg_distance := 0,
      average_leg_distance := 0, estimated_walking_time_minutes := 0 }
  else
    { is_feasible := (resolvedLegDistances route).sum ≤ maxTotal ∧
        pyMaxD (resolvedLegDistances route) ≤ 500,
      total_distance := (resolvedLegDistances route).sum,
      max_leg_distance := pyMaxD (resolvedLegDistances route),
      average_leg_distance :=
        if resolvedLegDistances route = [] then 0
        else (resolvedLegDistances route).sum / (resolvedLegDistances route).length,
      estimated_walking_time_minutes :=
        if 0 < (resolvedLegDistances route).sum
        then (resolvedLegDistances route).sum / 80 else 0 }

theorem foldl_max_le_iff (c : ℝ) (l : List ℝ) :
    ∀ a : ℝ, l.foldl max a ≤ c ↔ a ≤ c ∧ ∀ d ∈ l, d ≤ c := by
  induction l with
  | nil => intro a; simp
  | cons b rest ih =>
    intro a
    rw [List.foldl_cons, ih (max a b)]
    simp only [max_le_iff, List.mem_cons]
    constructor
    · rintro ⟨⟨ha, hb⟩, hrest⟩
      exact ⟨ha, fun d hd => hd.elim (fun he => he ▸ hb) (hrest d)⟩
    · rintro ⟨ha, hall⟩
      exact ⟨⟨ha, hall b (Or.inl rfl)⟩, fun d hd => hall d (Or.inr hd)⟩

theorem pyMaxD_le_iff (l : List ℝ) (c : ℝ) (hc : 0 ≤ c) :
    pyMaxD l ≤ c ↔ ∀ d ∈ l, d ≤ c := by
  cases l with
  | nil => simpa [pyMaxD] using hc
  | cons a rest =>
    rw [pyMaxD, foldl_max_le_iff c rest a]
    simp only [List.mem_cons]
    constructor
    · rintro ⟨ha, hrest⟩ d hd
      exact hd.elim (fun he => he ▸ ha) (hrest d)
    · intro hall
      exact ⟨hall a (Or.inl rfl), fun d hd => hall d (Or.inr hd)⟩

theorem resolvedLegDistances_short (route : List PyLocDict)
    (h : route.length < 2) : resolvedLegDistances route = [] := by
  match route with
  | [] => rfl
  | [a] => rfl
  | a :: b :: rest => simp only [List.length_cons] at h; omega

/-- **C6**: `_validate_walking_feasibility` reports a route feasible exactly
when the total of the resolved consecutive-leg distances (legs with an
unresolved endpoint are skipped) is at most 2000 m *and* every resolved leg
is at most 500 m.  Both comparisons are non-strict, so a route totalling
exactly 2000 m whose longest leg is exactly 500 m is feasible, while any
excess (for instance 2000.01 m total or a 500.01 m leg) is not. -/
theorem validate_walking_feasibility_iff (route : List PyLocDict) :
    (validate_walking_feasibility route).is_feasible ↔
      ((resolvedLegDistances route).sum ≤ 2000 ∧
        ∀ d ∈ resolvedLegDistances route, d ≤ 500) := by
  unfold validate_walking_feasibility
  by_cases h : route.length < 2
  · rw [if_pos h]
    simp [resolvedLegDistances_short route h]
  · rw [if_neg h]
    exact and_congr Iff.rfl (pyMaxD_le_iff _ 500 (by norm_num))

/-! ## `TranscriptGenerator.generate_transcript_segments`

Time values are Python floats; they are modelled as exact rationals, with
`round(x, 2)` modelled as exact round-half-even to centesimals. -/

/-- The `[.!?]` terminator class of `re.split(r'[.!?]+', …)`. -/
def isTermChar (c : Char) : Bool := c = '.' || c = '!' || c = '?'

/-- State machine for Python `content.split('\n\n')` (leftmost,
non-overlapping occurrences of the two-character separator). -/
def splitParagraphsAux : List Char → List Char → List (List Char)
  | [], cur => [cur.reverse]
  | [c], cur => [(c :: cur).reverse]
  | c1 :: c2 :: rest, cur =>
    if c1 = '\n' && c2 = '\n' then cur.reverse :: splitParagraphsAux rest []
    else splitParagraphsAux (c2 :: rest) (c1 :: cur)

/-- State machine for `re.split(r'[.!?]+', s)`: pieces between maximal
terminator runs (`prev` records whether the previous character was a
terminator). -/
def splitSentencesAux : List Char → List Char → Bool → List (List Char)
  | [], cur, _ => [cur.reverse]
  | c :: rest, cur, prev =>
    if isTermChar c then
      if prev then splitSentencesAux rest [] true
      else cur.reverse :: splitSentencesAux rest [] true
    else splitSentencesAux rest (c :: cur) false

/-- Python `sentence.split(',')`. -/
def splitCommaAux : List Char → List Char → List (List Char)
  | [], cur => [cur.reverse]
  | c :: rest, cur =>
    if c = ',' then cur.reverse :: splitCommaAux rest []
    else splitCommaAux rest (c :: cur)

/-- The `< 10`-character merge pass at the end of
`_split_content_into_segments`: a short fragment is appended (with a space)
to the previous kept segment. -/
def mergeShortSegments (segments : List (List Char)) : List (List Char) :=
  segments.foldl (fun acc seg =>
    if seg.length < 10 && !acc.isEmpty then acc.dropLast ++ [acc.getLast! ++ ' ' :: seg]
    else acc ++ [seg]) []

/-- `TranscriptGenerator._split_content_into_segments`: paragraphs first;
paragraphs over 200 characters split at sentence runs; sentences over 300
characters split at commas; stripped empties dropped at each stage; then the
short-fragment merge. -/
def split_content_into_segments (content : List Char) : List (List Char) :=
  mergeShortSegments
    ((((splitParagraphsAux content []).map pyStrip).filter (fun p => !p.isEmpty)).flatMap
      (fun paragraph =>
        if paragraph.length ≤ 200 then [paragraph]
        else
          ((((splitSentencesAux paragraph [] false).map pyStrip).filter
              (fun s => !s.isEmpty)).flatMap
            (fun sentence =>
              if 300 < sentence.length then
                (((splitCommaAux sentence []).map pyStrip).filter (fun p => !p.isEmpty))
              else [sentence]))))

/-- Python `round(x, 2)` on the exact value: round half-to-even at two
decimal places. -/
def pyRound2 (q : ℚ) : ℚ :=
  (if q * 100 - (⌊q * 100⌋ : ℚ) < 1/2 then (⌊q * 100⌋ : ℚ)
   else if 1/2 < q * 100 - (⌊q * 100⌋ : ℚ) then (⌊q * 100⌋ : ℚ) + 1
   else if ⌊q * 100⌋ % 2 = 0 then (⌊q * 100⌋ : ℚ) else (⌊q * 100⌋ : ℚ) + 1) / 100

/-- One transcript segment (`startTime`/`endTime`/`text`). -/
structure TranscriptSeg where
  startTime : ℚ
  endTime : ℚ
  text : List Char
  deriving DecidableEq

/-- The per-segment time allocation of `generate_transcript_segments`:
`max(duration · characterShare, 2.0)` with a zero share when the total
character count is zero. -/
def segDuration (estDuration totalChars : ℚ) (seg : List Char) : ℚ :=
  max (estDuration * (if 0 < totalChars then (seg.length : ℚ) / totalChars else 0)) 2

/-- The timing loop of `generate_transcript_segments`: running `current_time`,
rounded start/end stamps, stripped text. -/
def buildTranscript (estDuration totalChars : ℚ) :
    List (List Char) → ℚ → List TranscriptSeg
  | [], _ => []
  | seg :: rest, current =>
    ⟨pyRound2 current, pyRound2 (current + segDuration estDuration totalChars seg),
      pyStrip seg⟩ ::
      buildTranscript estDuration totalChars rest
        (current + segDuration estDuration totalChars seg)

/-- The final-segment adjustment `transcript_segments[-1]["endTime"] = …`. -/
def setLastEnd : List TranscriptSeg → ℚ → List TranscriptSeg
  | [], _ => []
  | [s], e => [⟨s.startTime, e, s.text⟩]
  | s :: s2 :: rest, e => s :: setLastEnd (s2 :: rest) e

/-- `TranscriptGenerator.generate_transcript_segments content estimatedDuration`. -/
def generate_transcript_segments (content : List Char) (estDuration : ℚ) :
    List TranscriptSeg :=
  if (split_content_into_segments content).isEmpty then []
  else
    setLastEnd
      (buildTranscript estDuration
        (((split_content_into_segments content).map List.length).sum : ℚ)
        (split_content_into_segments content) 0)
      (pyRound2 estDuration)

theorem setLastEnd_ne_nil : ∀ (l : List TranscriptSeg) (e : ℚ), l ≠ [] →
    setLastEnd l e ≠ []
  | [], _, h => absurd rfl h
  | [s], e, _ => by simp [setLastEnd]
  | s :: s2 :: rest, e, _ => by simp [setLastEnd]

theorem setLastEnd_getLast? : ∀ (l : List TranscriptSeg) (e : ℚ), l ≠ [] →
    ((setLastEnd l e).getLast?).map TranscriptSeg.endTime = some e
  | [], _, h => absurd rfl h
  | [s], e, _ => by simp [setLastEnd]
  | s :: s2 :: rest, e, _ => by
    have ih := setLastEnd_getLast? (s2 :: rest) e (by simp)
    have hne := setLastEnd_ne_nil (s2 :: rest) e (by simp)
    rw [setLastEnd]
    rcases hX : setLastEnd (s2 :: rest) e with _ | ⟨y, ys⟩
    · exact absurd hX hne
    · rw [hX] at ih
      rw [List.getLast?_cons_cons]
      exact ih

/-- The concrete input for C8: one short paragraph, a single segment. -/
def c8Input : List Char := "Hello there everyone.".data

theorem c8_result :
    generate_transcript_segments c8Input 1 = [⟨0, 1, c8Input⟩] := by
  have hseg : split_content_into_segments c8Input = [c8Input] := by decide
  have h0 : pyRound2 0 = 0 := by norm_num [pyRound2]
  have h1 : pyRound2 1 = 1 := by norm_num [pyRound2]
  have hs : pyStrip c8Input = c8Input := by decide
  unfold generate_transcript_segments
  rw [hseg]
  simp only [List.isEmpty_cons, Bool.false_eq_true, if_false, buildTranscript, setLastEnd,
    h0, h1, hs]

/-- **C8, counterexample**: the claim fails at content
`"Hello there everyone."` with estimated duration `1.0` second: the result is
the single segment `[0.0, 1.0]`, whose duration `1.0` is below the promised
2-second floor (the 2-second allocation of the sole segment is overwritten by
the final-segment adjustment to the estimated total duration). -/
theorem generate_transcript_segments_claim_false :
    ¬ (generate_transcript_segments c8Input 1 ≠ [] ∧
       (∀ s ∈ generate_transcript_segments c8Input 1, 2 ≤ s.endTime - s.startTime) ∧
       ((generate_transcript_segments c8Input 1).getLast?).map TranscriptSeg.endTime =
         some 1) := by
  rintro ⟨-, hdur, -⟩
  have h := hdur ⟨0, 1, c8Input⟩ (by rw [c8_result]; exact List.mem_singleton.mpr rfl)
  norm_num at h

/-- **C8, amended**: whenever the content splitter yields at least one
segment, `generate_transcript_segments` returns a non-empty list, every
segment's *allocated* duration (before rounding and before the final-segment
adjustment) is at least 2 seconds, and the final segment's `endTime` equals
the estimated total duration rounded to two decimals (`round(x, 2)`), which
may override the 2-second floor of the final segment. -/
theorem generate_transcript_segments_amended (content : List Char) (D : ℚ)
    (h : split_content_into_segments content ≠ []) :
    generate_transcript_segments content D ≠ [] ∧
    (∀ seg ∈ split_content_into_segments content,
      2 ≤ segDuration D
        (((split_content_into_segments content).map List.length).sum : ℚ) seg) ∧
    ((generate_transcript_segments content D).getLast?).map TranscriptSeg.endTime =
      some (pyRound2 D) := by
  have hempty : ¬ ((split_content_into_segments content).isEmpty = true) := by
    simpa [List.isEmpty_iff] using h
  have hbuild : buildTranscript D
      (((split_content_into_segments content).map List.length).sum : ℚ)
      (split_content_into_segments content) 0 ≠ [] := by
    rcases hs : split_content_into_segments content with _ | ⟨seg, rest⟩
    · exact absurd hs h
    · rw [buildTranscript]
      exact List.cons_ne_nil _ _
  refine ⟨?_, ?_, ?_⟩
  · unfold generate_transcript_segments
    rw [if_neg hempty]
    exact setLastEnd_ne_nil _ _ hbuild
  · intro seg _
    exact le_max_right _ 2
  · unfold generate_transcript_segments
    rw [if_neg hempty]
    exact setLastEnd_getLast? _ _ hbuild

/-- Witness for the amended C8 at concrete content and duration 10 s. -/
theorem generate_transcript_segments_amended_witness :
    split_content_into_segments c8Input ≠ [] ∧
    (generate_transcript_segments c8Input 10 ≠ [] ∧
      (∀ seg ∈ split_content_into_segments c8Input,
        2 ≤ segDuration 10
          (((split_content_into_segments c8Input).map List.length).sum : ℚ) seg) ∧
      ((generate_transcript_segments c8Input 10).getLast?).map TranscriptSeg.endTime =
        some (pyRound2 10)) := by
  have h : split_content_into_segments c8Input ≠ [] := by decide
  exact ⟨h, generate_transcript_segments_amended c8Input 10 h⟩

/-! ## `AIService.generate_tour_content` (content generator with fallback)

The cache lookup result and the per-provider outcome of
`_generate_tour_content_with_provider`'s provider call + response parsing
enter as oracles; the second component of the result is the ordered list of
providers actually called. -/

/-- The two LLM vendors (`app/config.py`, `class LLMProvider(str, Enum)`). -/
inductive LLMVendor
  | openai
  | anthropic
  deriving DecidableEq

/-- The fallback choice of `generate_tour_content`:
`ANTHROPIC if provider == OPENAI else OPENAI`. -/
def fallbackOf : LLMVendor → LLMVendor
  | .openai => .anthropic
  | .anthropic => .openai

/-- The provider identifier as interpolated into error messages.  (The exact
rendering of the `str`-mixin enum differs across Python versions; only its
presence matters to the statements below.) -/
def providerName : LLMVendor → List Char
  | .openai => "openai".data
  | .anthropic => "anthropic".data

/-- Parsed provider response (`title` and `content` mandatory, per
`_parse_tour_response`). -/
structure ParsedTour where
  title : List Char
  content : List Char
  deriving DecidableEq

/-- The metadata attached by `_generate_tour_content_with_provider` and
mutated on the fallback path.  Fields irrelevant to the claims (model name,
timestamp, echoed request parameters) are omitted. -/
structure TourMetadata where
  actual_provider : LLMVendor
  fallback_used : Bool
  original_provider : Option LLMVendor
  deriving DecidableEq

/-- The content dictionary returned by the generator. -/
structure TourContent where
  title : List Char
  content : List Char
  metadata : TourMetadata
  deriving DecidableEq

/-- The `AIProviderError` message `f"Provider {provider} failed: {str(e)}"`
raised by `_generate_tour_content_with_provider`. -/
def wrapProviderError (p : LLMVendor) (e : List Char) : List Char :=
  "Provider ".data ++ providerName p ++ " failed: ".data ++ e

/-- `AIService._generate_tour_content_with_provider`, with the provider call
and response parsing abstracted as `outcome`. -/
def generate_with_provider (outcome : LLMVendor → Except (List Char) ParsedTour)
    (p : LLMVendor) : Except (List Char) TourContent :=
  match outcome p with
  | .error e => .error (wrapProviderError p e)
  | .ok pt => .ok ⟨pt.title, pt.content, ⟨p, false, none⟩⟩

/-- The two metadata mutations of the fallback-success path:
`content["metadata"]["fallback_used"] = True` and
`content["metadata"]["original_provider"] = provider` (the `actual_provider`
was already set to the fallback by `_generate_tour_content_with_provider`). -/
def markFallback (p : LLMVendor) (c : TourContent) : TourContent :=
  { c with metadata := { c.metadata with fallback_used := true, original_provider := some p } }

/-- The `ContentGenerationError` message
`f"Failed to generate content with both providers: {provider} ({e}), {fallback_provider} ({fallback_error})"`. -/
def contentGenErrorMsg (p : LLMVendor) (e1 : List Char) (fb : LLMVendor)
    (e2 : List Char) : List Char :=
  "Failed to generate content with both providers: ".data ++ providerName p ++
    " (".data ++ e1 ++ "), ".data ++ providerName fb ++ " (".data ++ e2 ++ ")".data

/-- `AIService.generate_tour_content`: cache hit short-circuits; otherwise the
preferred provider, then — only if it raised — the other provider exactly
once; both failures raise the combined `ContentGenerationError`; a fallback
success is tagged in its metadata.  The second component records the
providers called, in order. -/
def generate_tour_content (cached : Option TourContent)
    (outcome : LLMVendor → Except (List Char) ParsedTour)
    (preferred : LLMVendor) :
    Except (List Char) TourContent × List LLMVendor :=
  match cached with
  | some c => (.ok c, [])
  | none =>
    match generate_with_provider outcome preferred with
    | .ok c => (.ok c, [preferred])
    | .error e1 =>
      match generate_with_provider outcome (fallbackOf preferred) with
      | .ok c =>
        (.ok (markFallback preferred c), [preferred, fallbackOf preferred])
      | .error e2 =>
        (.error (contentGenErrorMsg preferred e1 (fallbackOf preferred) e2),
          [preferred, fallbackOf preferred])

theorem infix_msg_first (p fb : LLMVendor) (e1 e2 : List Char) :
    e1 <:+: contentGenErrorMsg p e1 fb e2 := by
  refine ⟨"Failed to generate content with both providers: ".data ++ providerName p ++
    " (".data, "), ".data ++ providerName fb ++ " (".data ++ e2 ++ ")".data, ?_⟩
  simp [contentGenErrorMsg, List.append_assoc]

theorem infix_msg_second (p fb : LLMVendor) (e1 e2 : List Char) :
    e2 <:+: contentGenErrorMsg p e1 fb e2 := by
  refine ⟨"Failed to generate content with both providers: ".data ++ providerName p ++
    " (".data ++ e1 ++ "), ".data ++ providerName fb ++ " (".data, ")".data, ?_⟩
  simp [contentGenErrorMsg, List.append_assoc]

theorem infix_wrapProviderError (p : LLMVendor) (e : List Char) :
    e <:+: wrapProviderError p e := by
  refine ⟨"Provider ".data ++ providerName p ++ " failed: ".data, [], ?_⟩
  simp [wrapProviderError, List.append_assoc]

/-- **C1**: on a cache hit no provider is called; on a miss the preferred
provider is called first; the fallback provider is tried (exactly once) iff
the preferred call raised; no more than two provider calls occur; a
`ContentGenerationError` is raised only when both providers failed and its
message contains both providers' error details; a fallback success is tagged
`fallback_used = true` with both the original and the actual provider. -/
theorem generate_tour_content_correct (cached : Option TourContent)
    (outcome : LLMVendor → Except (List Char) ParsedTour) (preferred : LLMVendor) :
    (∀ c, cached = some c →
      generate_tour_content cached outcome preferred = (.ok c, [])) ∧
    (cached = none →
      (generate_tour_content cached outcome preferred).2.head? = some preferred) ∧
    (generate_tour_content cached outcome preferred).2.length ≤ 2 ∧
    (cached = none →
      ((generate_tour_content cached outcome preferred).2 =
          [preferred, fallbackOf preferred] ↔
        ∃ e, outcome preferred = .error e)) ∧
    (∀ msg, (generate_tour_content cached outcome preferred).1 = .error msg →
      cached = none ∧
      (∃ e1, outcome preferred = .error e1 ∧ e1 <:+: msg) ∧
      (∃ e2, outcome (fallbackOf preferred) = .error e2 ∧ e2 <:+: msg)) ∧
    (∀ e1 c, cached = none → outcome preferred = .error e1 →
      generate_with_provider outcome (fallbackOf preferred) = .ok c →
      ((generate_tour_content cached outcome preferred).1 = .ok (markFallback preferred c) ∧
        (markFallback preferred c).metadata.fallback_used = true ∧
        (markFallback preferred c).metadata.original_provider = some preferred ∧
        (markFallback preferred c).metadata.actual_provider = fallbackOf preferred)) := by
  rcases cached with _ | c0
  · rcases h1 : outcome preferred with e1 | pt1
    · rcases h2 : outcome (fallbackOf preferred) with e2 | pt2
      · -- both providers fail
        have hres : generate_tour_content none outcome preferred =
            (.error (contentGenErrorMsg preferred (wrapProviderError preferred e1)
                (fallbackOf preferred) (wrapProviderError (fallbackOf preferred) e2)),
              [preferred, fallbackOf preferred]) := by
          simp only [generate_tour_content, generate_with_provider, h1, h2]
        have hres1 : (generate_tour_content none outcome preferred).1 =
            .error (contentGenErrorMsg preferred (wrapProviderError preferred e1)
              (fallbackOf preferred) (wrapProviderError (fallbackOf preferred) e2)) := by
          rw [hres]
        have hres2 : (generate_tour_content none outcome preferred).2 =
            [preferred, fallbackOf preferred] := by
          rw [hres]
        refine ⟨fun c hc => Option.noConfusion hc, ?_, ?_, ?_, ?_, ?_⟩
        · intro _
          rw [hres2]
          rfl
        · rw [hres2]
          simp
        · intro _
          rw [hres2]
          exact iff_of_true rfl ⟨e1, rfl⟩
        · intro msg hmsg
          rw [hres1] at hmsg
          injection hmsg with hmsg
          subst hmsg
          refine ⟨rfl, ⟨e1, rfl, ?_⟩, ⟨e2, rfl, ?_⟩⟩
          · exact (infix_wrapProviderError preferred e1).trans
              (infix_msg_first _ _ _ _)
          · exact (infix_wrapProviderError (fallbackOf preferred) e2).trans
              (infix_msg_second _ _ _ _)
        · intro e1' c _ _ hok
          rw [generate_with_provider, h2] at hok
          exact absurd hok (by simp)
      · -- preferred fails, fallback succeeds
        have hres : generate_tour_content none outcome preferred =
            (.ok (markFallback preferred
                ⟨pt2.title, pt2.content, ⟨fallbackOf preferred, false, none⟩⟩),
              [preferred, fallbackOf preferred]) := by
          simp only [generate_tour_content, generate_with_provider, h1, h2]
        have hres1 : (generate_tour_content none outcome preferred).1 =
            .ok (markFallback preferred
              ⟨pt2.title, pt2.content, ⟨fallbackOf preferred, false, none⟩⟩) := by
          rw [hres]
        have hres2 : (generate_tour_content none outcome preferred).2 =
            [preferred, fallbackOf preferred] := by
          rw [hres]
        refine ⟨fun c hc => Option.noConfusion hc, ?_, ?_, ?_, ?_, ?_⟩
        · intro _
          rw [hres2]
          rfl
        · rw [hres2]
          simp
        · intro _
          rw [hres2]
          exact iff_of_true rfl ⟨e1, rfl⟩
        · intro msg hmsg
          rw [hres1] at hmsg
          exact absurd hmsg (by simp)
        · intro e1' c _ _ hok
          rw [generate_with_provider, h2] at hok
          injection hok with hok
          subst hok
          exact ⟨hres1, rfl, rfl, rfl⟩
    · -- preferred succeeds
      have hres : generate_tour_content none outcome preferred =
          (.ok ⟨pt1.title, pt1.content, ⟨preferred, false, none⟩⟩, [preferred]) := by
        simp only [generate_tour_content, generate_with_provider, h1]
      have hres1 : (generate_tour_content none outcome preferred).1 =
          .ok ⟨pt1.title, pt1.content, ⟨preferred, false, none⟩⟩ := by
        rw [hres]
      have hres2 : (generate_tour_content none outcome preferred).2 = [preferred] := by
        rw [hres]
      refine ⟨fun c hc => Option.noConfusion hc, ?_, ?_, ?_, ?_, ?_⟩
      · intro _
        rw [hres2]
        rfl
      · rw [hres2]
        simp
      · intro _
        rw [hres2]
        constructor
        · intro hl
          exact absurd (congrArg List.length hl) (by simp)
        · rintro ⟨e, he⟩
          exact absurd he (by simp)
      · intro msg hmsg
        rw [hres1] at hmsg
        exact absurd hmsg (by simp)
      · intro e1' c _ h1' _
        exact absurd h1' (by simp)
  · -- cache hit
    have hres : generate_tour_content (some c0) outcome preferred = (.ok c0, []) := rfl
    refine ⟨?_, ?_, ?_, ?_, ?_, ?_⟩
    · intro c hc
      injection hc with hc
      subst hc
      exact hres
    · intro h
      exact absurd h (by simp)
    · rw [hres]
      simp
    · intro h
      exact absurd h (by simp)
    · intro msg hmsg
      have : (generate_tour_content (some c0) outcome preferred).1 = .ok c0 := by rw [hres]
      rw [this] at hmsg
      exact absurd hmsg (by simp)
    · intro e1' c h _ _
      exact absurd h (by simp)

/-- A concrete provider oracle on which both vendors fail (C1 witness). -/
def c1Outcome : LLMVendor → Except (List Char) ParsedTour
  | .openai => .error "boom".data
  | .anthropic => .error "bang".data

/-- The combined error message produced on the concrete C1 witness run. -/
def c1Msg : List Char :=
  contentGenErrorMsg .openai (wrapProviderError .openai "boom".data)
    .anthropic (wrapProviderError .anthropic "bang".data)

/-- Witness for C1: a concrete cache-missing run in which both providers
fail; both raw error details occur in the raised message, both providers
were called in order, and no more than two calls occurred. -/
theorem generate_tour_content_correct_witness :
    (generate_tour_content none c1Outcome .openai).1 = .error c1Msg ∧
    "boom".data <:+: c1Msg ∧ "bang".data <:+: c1Msg ∧
    (generate_tour_content none c1Outcome .openai).2 = [.openai, .anthropic] ∧
    (generate_tour_content none c1Outcome .openai).2.length ≤ 2 := by
  have h := generate_tour_content_correct none c1Outcome .openai
  have hres : (generate_tour_content none c1Outcome .openai).1 = .error c1Msg := rfl
  obtain ⟨-, ⟨e1, he1, hinf1⟩, ⟨e2, he2, hinf2⟩⟩ := h.2.2.2.2.1 c1Msg hres
  have hb1 : "boom".data = e1 := by
    have hoc : c1Outcome .openai = .error "boom".data := rfl
    rw [hoc] at he1
    injection he1
  have hb2 : "bang".data = e2 := by
    have hoc : c1Outcome (fallbackOf .openai) = .error "bang".data := rfl
    rw [hoc] at he2
    injection he2
  refine ⟨hres, hb1 ▸ hinf1, hb2 ▸ hinf2, ?_, h.2.2.1⟩
  exact (h.2.2.2.1 rfl).mpr ⟨"boom".data, rfl⟩

/-! ## `TourService.generate_tour` and
`TourService._generate_tour_content_background` (orchestrator state machine) -/

/-- The persisted `Tour.status` values. -/
inductive TourStatus
  | generating
  | content_ready
  | ready
  | error
  deriving DecidableEq

/-- The methods defined on `class AIService` in
`app/services/ai_service.py` — the class of the `self.ai_service` instance
used by the background task.  (`generate_audio_chunked` is not among them;
the only other definition of that name in the repository is a test of a
non-existent `services.audio_service` module.) -/
def aiServiceMethods : List String :=
  ["generate_tour_content", "_generate_tour_content_with_provider",
   "_generate_with_openai", "_generate_with_anthropic", "_create_optimized_prompt",
   "_parse_tour_response", "_create_content_cache_key", "_estimate_tokens",
   "generate_audio", "_create_audio_cache_key", "get_provider_status",
   "estimate_generation_cost"]

/-- Outcome of the actual TTS provider call: audio bytes, an
`asyncio.TimeoutError`, or any other exception. -/
inductive TTSOutcome
  | ok (audio : List Nat)
  | timeout
  | failure
  deriving DecidableEq

/-- The audio stage of the background task: content over 4000 characters
resolves `self.ai_service.generate_audio_chunked` — an `AttributeError` when
the attribute does not exist on `AIService`, absorbed by the surrounding
`except Exception` — while short content calls `generate_audio` on the
truncated text.  Timeouts and failures are absorbed; `none` means
"proceeding without audio". -/
def audioStage (methods : List String) (content : List Char) (tts : TTSOutcome) :
    Option (List Nat) :=
  if 4000 < content.length then
    if "generate_audio_chunked" ∈ methods then
      match tts with
      | .ok audio => some audio
      | _ => none
    else none
  else
    match tts with
    | .ok audio => some audio
    | _ => none

/-- The outcomes of the fallible steps of the background task.  Stops
processing (`stopsOk`) and transcript generation (`transcriptOk`) are
absorbed wherever they fail and never touch the status; they are carried
here to make that visible. -/
structure StageOutcomes where
  contentResult : Except (List Char) (List Char)
  saveContentOk : Bool
  stopsOk : Bool
  tts : TTSOutcome
  transcriptOk : Bool
  finalSaveOk : Bool
  errorSaveOk : Bool

/-- What one background execution persists: the ordered list of status
writes, and — when the final save ran — the audio reference it stored
(`some ()` a URL, `none` a NULL `audio_url`). -/
structure BackgroundRun where
  statusWrites : List TourStatus
  finalWrite : Option (Option Unit)
  deriving DecidableEq

/-- `TourService._generate_tour_content_background` as a function of the
stage outcomes.  An LLM failure writes `error` and stops; a successful
`_save_content` persists `content_ready`; stops, audio and transcript
failures are absorbed; the final block persists `ready`; any other escape
falls to the outer handler's best-effort `error` write (which may itself
fail, writing nothing). -/
def backgroundRun (o : StageOutcomes) : BackgroundRun :=
  match o.contentResult with
  | .error _ => ⟨if o.errorSaveOk then [.error] else [], none⟩
  | .ok content =>
    if o.saveContentOk then
      if o.finalSaveOk then
        ⟨[.content_ready, .ready],
          some ((audioStage aiServiceMethods content o.tts).map (fun _ => ()))⟩
      else ⟨[.content_ready] ++ (if o.errorSaveOk then [.error] else []), none⟩
    else ⟨if o.errorSaveOk then [.error] else [], none⟩

/-- `TourService.generate_tour` plus the background task it launches: the
synchronous creation step persists status `generating` (when its commit
succeeds; on failure no tour record exists and no background task starts). -/
def fullStatusTrace (creationOk : Bool) (o : StageOutcomes) : List TourStatus :=
  if creationOk then TourStatus.generating :: (backgroundRun o).statusWrites else []

/-- The status sequences the claim allows: every prefix of
`generating, content_ready, ready`, optionally followed by one terminal
`error`. -/
def allowedTraces : List (List TourStatus) :=
  [[], [.generating], [.generating, .content_ready],
   [.generating, .content_ready, .ready],
   [.error], [.generating, .error], [.generating, .content_ready, .error],
   [.generating, .content_ready, .ready, .error]]

/-- Forward order of the tour states (`error` terminal and last). -/
def statusRank : TourStatus → Nat
  | .generating => 0
  | .content_ready => 1
  | .ready => 2
  | .error => 3

/-- **C2**: for every combination of stage outcomes, the sequence of status
values persisted by the creation step and the background task is a prefix of
`generating, content_ready, ready`, possibly followed by a terminal `error`;
in particular the persisted statuses are strictly increasing in the forward
order, so the status never moves backward. -/
theorem tour_status_trace_valid (creationOk : Bool) (o : StageOutcomes) :
    fullStatusTrace creationOk o ∈ allowedTraces ∧
    (fullStatusTrace creationOk o).Pairwise (fun a b => statusRank a < statusRank b) := by
  obtain ⟨cr, sc, st, tts, tr, fs, es⟩ := o
  cases creationOk <;> rcases cr with e | c <;> cases sc <;> cases fs <;> cases es <;>
    simp [fullStatusTrace, backgroundRun, allowedTraces, statusRank]

/-- **C5**: for content longer than 4000 characters the audio stage of the
background task always fails — it resolves `generate_audio_chunked`, which is
not an attribute of `AIService`, so the call raises `AttributeError`
regardless of the TTS oracle — the failure is absorbed, and when the
remaining stages succeed the tour is persisted with status `ready` and a
NULL `audio_url`. -/
theorem audio_chunked_missing (o : StageOutcomes) (content : List Char)
    (hc : o.contentResult = .ok content) (hlen : 4000 < content.length)
    (hsave : o.saveContentOk = true) (hfinal : o.finalSaveOk = true) :
    "generate_audio_chunked" ∉ aiServiceMethods ∧
    audioStage aiServiceMethods content o.tts = none ∧
    (backgroundRun o).statusWrites = [TourStatus.content_ready, TourStatus.ready] ∧
    (backgroundRun o).finalWrite = some none := by
  have hmem : "generate_audio_chunked" ∉ aiServiceMethods := by decide
  have haudio : audioStage aiServiceMethods content o.tts = none := by
    unfold audioStage
    rw [if_pos hlen, if_neg hmem]
  have hrun : backgroundRun o =
      ⟨[TourStatus.content_ready, TourStatus.ready],
        some ((audioStage aiServiceMethods content o.tts).map (fun _ => ()))⟩ := by
    unfold backgroundRun
    rw [hc, hsave, hfinal]
    simp
  refine ⟨hmem, haudio, ?_, ?_⟩
  · rw [hrun]
  · rw [hrun, haudio]
    rfl

/-- The concrete stage outcomes for the C5 witness: 4001 characters of
content, every absorbable stage succeeding, the TTS oracle even willing to
return audio. -/
def c5Outcomes : StageOutcomes :=
  ⟨.ok (List.replicate 4001 'a'), true, true, .ok [7], true, true, true⟩

/-- Witness for C5 at `c5Outcomes`. -/
theorem audio_chunked_missing_witness :
    (c5Outcomes.contentResult = .ok (List.replicate 4001 'a') ∧
      4000 < (List.replicate 4001 'a').length ∧
      c5Outcomes.saveContentOk = true ∧ c5Outcomes.finalSaveOk = true) ∧
    ("generate_audio_chunked" ∉ aiServiceMethods ∧
      audioStage aiServiceMethods (List.replicate 4001 'a') c5Outcomes.tts = none ∧
      (backgroundRun c5Outcomes).statusWrites =
        [TourStatus.content_ready, TourStatus.ready] ∧
      (backgroundRun c5Outcomes).finalWrite = some none) := by
  have hlen : 4000 < (List.replicate 4001 'a').length := by
    rw [List.length_replicate]
    omega
  exact ⟨⟨rfl, hlen, rfl, rfl⟩,
    audio_chunked_missing c5Outcomes (List.replicate 4001 'a') rfl hlen rfl rfl⟩

/-! ## `TourService.regenerate_tour_audio` and the lazy-regeneration branch
of `TourService.get_tour_audio` (the unbound name `request`)

Both code paths evaluate `request.voice if hasattr(request, "voice") and
request.voice else settings.OPENAI_TTS_VOICE`; `request` is bound in neither
function (it is a parameter of `generate_tour` and of the background task
only), so evaluating `hasattr(request, …)` raises `NameError`, which each
surrounding `except Exception` converts into a `TourServiceError`.  Name
resolution is modelled explicitly; the code after the doomed expression is
taken as an opaque continuation parameter, which the theorems quantify
over. -/

/-- The module-level bindings of `app/services/tour_service.py`: the imports,
`logger`, and the module's own class/exception/singleton definitions. -/
def tourServiceModuleNames : List String :=
  ["asyncio", "logging", "uuid", "datetime", "Dict", "List", "Optional", "Any",
   "AsyncSession", "select", "and_", "selectinload", "Tour", "Location", "User",
   "TourCreate", "TourUpdate", "TourResponse", "TourGenerationRequest",
   "ai_service", "cache_service", "location_service", "settings",
   "TranscriptGenerator", "logger", "TourServiceError", "TourNotFoundError",
   "TourGenerationError", "TourService", "tour_service"]

/-- The local names bound in `regenerate_tour_audio` before the `voice`
expression runs: parameters and prior assignments. -/
def regenerateAudioLocalNames : List String :=
  ["self", "db", "tour_id", "user", "tour", "audio_text"]

/-- The local names bound in `get_tour_audio` at the regeneration branch. -/
def getTourAudioLocalNames : List String :=
  ["self", "db", "tour_id", "user", "tour", "audio_key", "audio_b64", "audio_text"]

/-- Python name resolution (local scope, then module scope); `none` is a
`NameError`. -/
def resolveName (localNames moduleNames : List String) (n : String) : Option Unit :=
  if n ∈ localNames ∨ n ∈ moduleNames then some () else none

/-- The persisted tour record fields these paths read or could write. -/
structure TourRecord where
  content : List Char
  audio_url : Option (List Char)
  status : TourStatus
  deriving DecidableEq

/-- `TourServiceError` carrying its message. -/
inductive TourSvcError
  | tourServiceError (msg : List Char)
  deriving DecidableEq

/-- A call result: outcome, the list of cache writes performed, and the tour
record as left behind. -/
def TourCall (α : Type) : Type := Except TourSvcError α × List (List Char) × TourRecord

/-- `TourService.regenerate_tour_audio` on a fetched tour.  `rest` is the
continuation for the (unreachable) case in which `request` resolves; Python
raises `TourServiceError(f"Failed to regenerate tour audio: …")` from the
`NameError` (whose own message quotes the unbound name). -/
def regenerate_tour_audio (tour : TourRecord) (rest : TourCall Unit) : TourCall Unit :=
  if tour.content = [] then
    (.error (.tourServiceError "Tour has no content to generate audio from".data),
      [], tour)
  else
    match resolveName regenerateAudioLocalNames tourServiceModuleNames "request" with
    | none =>
      (.error (.tourServiceError
        "Failed to regenerate tour audio: NameError: name request is not defined".data),
        [], tour)
    | some _ => rest

/-- `TourService.get_tour_audio` on a fetched tour, with the cached audio
lookup supplied as an oracle.  `restCached` continues the cache-hit decode
path, `restBound` the unreachable bound-`request` path. -/
def get_tour_audio (tour : TourRecord) (cachedAudio : Option (List Char))
    (restCached : TourCall (List Char)) (restBound : TourCall (List Char)) :
    TourCall (List Char) :=
  if ¬ (tour.status = .ready ∨ tour.status = .content_ready) then
    (.error (.tourServiceError "Tour is not ready".data), [], tour)
  else if tour.audio_url = none then
    (.error (.tourServiceError "Audio not available for this tour".data), [], tour)
  else
    match cachedAudio with
    | some _ => restCached
    | none =>
      if tour.content = [] then
        (.error (.tourServiceError
          "Audio data not found and no content available for regeneration".data),
          [], tour)
      else
        match resolveName getTourAudioLocalNames tourServiceModuleNames "request" with
        | none =>
          (.error (.tourServiceError "Audio data not found and regeneration failed".data),
            [], tour)
        | some _ => restBound

/-- **C10**: `request` is unbound in both functions, so for every tour with
non-empty content `regenerate_tour_audio` raises `TourServiceError` — and
the lazy-regeneration branch of `get_tour_audio` (ready tour, `audio_url`
set, cached audio missing, content present) raises
`TourServiceError("Audio data not found and regeneration failed")` —
regardless of what the code past the `voice` expression would do; on these
paths nothing is written to the cache and the tour record is unchanged. -/
theorem regenerate_audio_always_fails :
    ("request" ∉ regenerateAudioLocalNames ∧ "request" ∉ tourServiceModuleNames ∧
      "request" ∉ getTourAudioLocalNames) ∧
    (∀ (tour : TourRecord) (rest : TourCall Unit), tour.content ≠ [] →
      regenerate_tour_audio tour rest =
        (.error (.tourServiceError
          "Failed to regenerate tour audio: NameError: name request is not defined".data),
          [], tour)) ∧
    (∀ (tour : TourRecord) (restCached restBound : TourCall (List Char)),
      (tour.status = .ready ∨ tour.status = .content_ready) →
      tour.audio_url ≠ none → tour.content ≠ [] →
      get_tour_audio tour none restCached restBound =
        (.error (.tourServiceError "Audio data not found and regeneration failed".data),
          [], tour)) := by
  have hresolve1 :
      resolveName regenerateAudioLocalNames tourServiceModuleNames "request" = none := by
    decide
  have hresolve2 :
      resolveName getTourAudioLocalNames tourServiceModuleNames "request" = none := by
    decide
  refine ⟨by decide, ?_, ?_⟩
  · intro tour rest hcontent
    unfold regenerate_tour_audio
    rw [if_neg hcontent, hresolve1]
  · intro tour restCached restBound hstatus haudio hcontent
    unfold get_tour_audio
    rw [if_neg (not_not_intro hstatus), if_neg haudio]
    simp only
    rw [if_neg hcontent, hresolve2]

/-- The concrete tour for the C10 witness: ready, audio reference set,
non-empty content. -/
def c10Tour : TourRecord :=
  ⟨"A fine walking tour.".data, some "audio-url".data, .ready⟩

/-- Witness for C10 at `c10Tour` with arbitrary concrete continuations. -/
theorem regenerate_audio_always_fails_witness :
    (c10Tour.content ≠ [] ∧ (c10Tour.status = .ready ∨ c10Tour.status = .content_ready) ∧
      c10Tour.audio_url ≠ none) ∧
    regenerate_tour_audio c10Tour (.ok (), [], c10Tour) =
      (.error (.tourServiceError
        "Failed to regenerate tour audio: NameError: name request is not defined".data),
        [], c10Tour) ∧
    get_tour_audio c10Tour none (.ok [], [], c10Tour) (.ok [], [], c10Tour) =
      (.error (.tourServiceError "Audio data not found and regeneration failed".data),
        [], c10Tour) := by
  have h := regenerate_audio_always_fails
  have hc : c10Tour.content ≠ [] := by decide
  have hs : c10Tour.status = .ready ∨ c10Tour.status = .content_ready := Or.inl rfl
  have ha : c10Tour.audio_url ≠ none := by decide
  exact ⟨⟨hc, hs, ha⟩, h.2.1 c10Tour (.ok (), [], c10Tour) hc,
    h.2.2 c10Tour (.ok [], [], c10Tour) (.ok [], [], c10Tour) hs ha hc⟩

/-! ### C3: `AIService._create_content_cache_key` (src/app/services/ai_service.py) -/

def hexDigitChar (k : Nat) : Char :=
  match k with
  | 0 => '0' | 1 => '1' | 2 => '2' | 3 => '3' | 4 => '4'
  | 5 => '5' | 6 => '6' | 7 => '7' | 8 => '8' | 9 => '9'
  | 10 => 'a' | 11 => 'b' | 12 => 'c' | 13 => 'd' | 14 => 'e' | _ => 'f'

def hex4 (n : Nat) : List Char :=
  [hexDigitChar (n / 4096 % 16), hexDigitChar (n / 256 % 16),
   hexDigitChar (n / 16 % 16), hexDigitChar (n % 16)]

def jsonEscChar (c : Char) : List Char :=
  if c = '"' then ['\\', '"']
  else if c = '\\' then ['\\', '\\']
  else if c = '\n' then ['\\', 'n']
  else if c = '\r' then ['\\', 'r']
  else if c = '\t' then ['\\', 't']
  else if c = Char.ofNat 8 then ['\\', 'b']
  else if c = Char.ofNat 12 then ['\\', 'f']
  else if c.toNat < 32 ∨ (126 < c.toNat ∧ c.toNat < 65536) then
    '\\' :: 'u' :: hex4 c.toNat
  else if 65536 ≤ c.toNat then
    ('\\' :: 'u' :: hex4 (55296 + (c.toNat - 65536) / 1024)) ++
      ('\\' :: 'u' :: hex4 (56320 + (c.toNat - 65536) % 1024))
  else [c]

def jsonEscape (s : List Char) : List Char := s.flatMap jsonEscChar

def jsonStringLit (s : List Char) : List Char := '"' :: (jsonEscape s ++ ['"'])

def hexVal (c : Char) : Nat :=
  if c = '0' then 0 else if c = '1' then 1 else if c = '2' then 2
  else if c = '3' then 3 else if c = '4' then 4 else if c = '5' then 5
  else if c = '6' then 6 else if c = '7' then 7 else if c = '8' then 8
  else if c = '9' then 9 else if c = 'a' then 10 else if c = 'b' then 11
  else if c = 'c' then 12 else if c = 'd' then 13 else if c = 'e' then 14 else 15

def hex4Val (a b c d : Char) : Nat :=
  ((hexVal a * 16 + hexVal b) * 16 + hexVal c) * 16 + hexVal d

def unescESC (e : Char) : Char :=
  if e = 'n' then '\n' else if e = 'r' then '\r' else if e = 't' then '\t'
  else if e = 'b' then Char.ofNat 8 else if e = 'f' then Char.ofNat 12 else e

def parseStrBody : List Char → Option (List Char × List Char)
  | [] => none
  | x :: rest =>
    if x = '"' then some ([], rest)
    else if x = '\\' then
      match rest with
      | [] => none
      | e :: rest2 =>
        if e = 'u' then
          match rest2 with
          | a :: b :: c :: d :: rest3 =>
            if 55296 ≤ hex4Val a b c d ∧ hex4Val a b c d < 56320 then
              match rest3 with
              | x2 :: u2 :: a2 :: b2 :: c2 :: d2 :: rest4 =>
                if x2 = '\\' ∧ u2 = 'u' then
                  (parseStrBody rest4).map (fun p =>
                    (Char.ofNat (65536 + (hex4Val a b c d - 55296) * 1024 +
                      (hex4Val a2 b2 c2 d2 - 56320)) :: p.1, p.2))
                else none
              | _ => none
            else
              (parseStrBody rest3).map (fun p =>
                (Char.ofNat (hex4Val a b c d) :: p.1, p.2))
          | _ => none
        else (parseStrBody rest2).map (fun p => (unescESC e :: p.1, p.2))
    else (parseStrBody rest).map (fun p => (x :: p.1, p.2))
termination_by l => l.length

theorem parseStrBody_quote (r : List Char) : parseStrBody ('"' :: r) = some ([], r) := by
  rw [parseStrBody.eq_def]
  simp

theorem parseStrBody_esc (e : Char) (r : List Char) (he : e ≠ 'u') :
    parseStrBody ('\\' :: e :: r) =
      (parseStrBody r).map (fun p => (unescESC e :: p.1, p.2)) := by
  rw [parseStrBody.eq_def]
  simp [he]

theorem parseStrBody_u (a b c d : Char) (r : List Char)
    (h : ¬ (55296 ≤ hex4Val a b c d ∧ hex4Val a b c d < 56320)) :
    parseStrBody ('\\' :: 'u' :: a :: b :: c :: d :: r) =
      (parseStrBody r).map (fun p => (Char.ofNat (hex4Val a b c d) :: p.1, p.2)) := by
  rw [parseStrBody.eq_def]
  simp [h]

theorem parseStrBody_u2 (a b c d a2 b2 c2 d2 : Char) (r : List Char)
    (h : 55296 ≤ hex4Val a b c d ∧ hex4Val a b c d < 56320) :
    parseStrBody
        ('\\' :: 'u' :: a :: b :: c :: d :: '\\' :: 'u' :: a2 :: b2 :: c2 :: d2 :: r) =
      (parseStrBody r).map (fun p =>
        (Char.ofNat (65536 + (hex4Val a b c d - 55296) * 1024 +
          (hex4Val a2 b2 c2 d2 - 56320)) :: p.1, p.2)) := by
  rw [parseStrBody.eq_def]
  simp [h]

theorem parseStrBody_plain (x : Char) (r : List Char) (h1 : x ≠ '"') (h2 : x ≠ '\\') :
    parseStrBody (x :: r) = (parseStrBody r).map (fun p => (x :: p.1, p.2)) := by
  rw [parseStrBody.eq_def]
  simp [h1, h2]

theorem hexVal_hexDigitChar (k : Nat) (h : k < 16) : hexVal (hexDigitChar k) = k := by
  interval_cases k <;> rfl

theorem hex4Val_hex4 (n : Nat) (h : n < 65536) :
    hex4Val (hexDigitChar (n / 4096 % 16)) (hexDigitChar (n / 256 % 16))
      (hexDigitChar (n / 16 % 16)) (hexDigitChar (n % 16)) = n := by
  unfold hex4Val
  rw [hexVal_hexDigitChar _ (by omega), hexVal_hexDigitChar _ (by omega),
    hexVal_hexDigitChar _ (by omega), hexVal_hexDigitChar _ (by omega)]
  omega

theorem char_toNat_valid (c : Char) :
    c.toNat < 55296 ∨ (57343 < c.toNat ∧ c.toNat < 1114112) := c.valid

theorem escape_short_step (c e : Char) (s' r : List Char)
    (hesc : jsonEscChar c = ['\\', e]) (hene : e ≠ 'u') (hunesc : unescESC e = c)
    (ih : parseStrBody (jsonEscape s' ++ '"' :: r) = some (s', r)) :
    parseStrBody (jsonEscChar c ++ (jsonEscape s' ++ '"' :: r)) = some (c :: s', r) := by
  rw [hesc]
  show parseStrBody ('\\' :: e :: (jsonEscape s' ++ '"' :: r)) = _
  rw [parseStrBody_esc e _ hene, ih]
  simp [hunesc]

theorem parseStrBody_escape (s : List Char) :
    ∀ r : List Char, parseStrBody (jsonEscape s ++ '"' :: r) = some (s, r) := by
  induction s with
  | nil =>
    intro r
    show parseStrBody ('"' :: r) = _
    exact parseStrBody_quote r
  | cons c s' ih =>
    intro r
    have hstep : jsonEscape (c :: s') ++ '"' :: r =
        jsonEscChar c ++ (jsonEscape s' ++ '"' :: r) := by
      simp [jsonEscape, List.flatMap_cons, List.append_assoc]
    rw [hstep]
    have hvalid := char_toNat_valid c
    by_cases h1 : c = '"'
    · subst h1
      exact escape_short_step _ '"' _ _ (by decide) (by decide) (by decide) (ih r)
    · by_cases h2 : c = '\\'
      · subst h2
        exact escape_short_step _ '\\' _ _ (by decide) (by decide) (by decide) (ih r)
      · by_cases h3 : c = '\n'
        · subst h3
          exact escape_short_step _ 'n' _ _ (by decide) (by decide) (by decide) (ih r)
        · by_cases h4 : c = '\r'
          · subst h4
            exact escape_short_step _ 'r' _ _ (by decide) (by decide) (by decide) (ih r)
          · by_cases h5 : c = '\t'
            · subst h5
              exact escape_short_step _ 't' _ _ (by decide) (by decide) (by decide) (ih r)
            · by_cases h6 : c = Char.ofNat 8
              · subst h6
                exact escape_short_step _ 'b' _ _ (by decide) (by decide) (by decide) (ih r)
              · by_cases h7 : c = Char.ofNat 12
                · subst h7
                  exact escape_short_step _ 'f' _ _ (by decide) (by decide) (by decide) (ih r)
                · by_cases h8 : c.toNat < 32 ∨ (126 < c.toNat ∧ c.toNat < 65536)
                  · -- basic-plane \u escape
                    have hesc : jsonEscChar c = '\\' :: 'u' :: hex4 c.toNat := by
                      rw [jsonEscChar, if_neg h1, if_neg h2, if_neg h3, if_neg h4,
                        if_neg h5, if_neg h6, if_neg h7, if_pos h8]
                    have hv : hex4Val (hexDigitChar (c.toNat / 4096 % 16))
                        (hexDigitChar (c.toNat / 256 % 16)) (hexDigitChar (c.toNat / 16 % 16))
                        (hexDigitChar (c.toNat % 16)) = c.toNat :=
                      hex4Val_hex4 c.toNat (by omega)
                    rw [hesc]
                    show parseStrBody ('\\' :: 'u' :: hexDigitChar (c.toNat / 4096 % 16) ::
                        hexDigitChar (c.toNat / 256 % 16) :: hexDigitChar (c.toNat / 16 % 16) ::
                        hexDigitChar (c.toNat % 16) :: (jsonEscape s' ++ '"' :: r)) =
                      some (c :: s', r)
                    rw [parseStrBody_u _ _ _ _ _ (by rw [hv]; omega), hv, ih r]
                    simp [Char.ofNat_toNat]
                  · by_cases h9 : 65536 ≤ c.toNat
                    · -- surrogate pair
                      have hesc : jsonEscChar c =
                          ('\\' :: 'u' :: hex4 (55296 + (c.toNat - 65536) / 1024)) ++
                            ('\\' :: 'u' :: hex4 (56320 + (c.toNat - 65536) % 1024)) := by
                        rw [jsonEscChar, if_neg h1, if_neg h2, if_neg h3, if_neg h4,
                          if_neg h5, if_neg h6, if_neg h7, if_neg h8, if_pos h9]
                      have hv1 : hex4Val
                          (hexDigitChar ((55296 + (c.toNat - 65536) / 1024) / 4096 % 16))
                          (hexDigitChar ((55296 + (c.toNat - 65536) / 1024) / 256 % 16))
                          (hexDigitChar ((55296 + (c.toNat - 65536) / 1024) / 16 % 16))
                          (hexDigitChar ((55296 + (c.toNat - 65536) / 1024) % 16)) =
                          55296 + (c.toNat - 65536) / 1024 :=
                        hex4Val_hex4 _ (by omega)
                      have hv2 : hex4Val
                          (hexDigitChar ((56320 + (c.toNat - 65536) % 1024) / 4096 % 16))
                          (hexDigitChar ((56320 + (c.toNat - 65536) % 1024) / 256 % 16))
                          (hexDigitChar ((56320 + (c.toNat - 65536) % 1024) / 16 % 16))
                          (hexDigitChar ((56320 + (c.toNat - 65536) % 1024) % 16)) =
                          56320 + (c.toNat - 65536) % 1024 :=
                        hex4Val_hex4 _ (by omega)
                      rw [hesc]
                      show parseStrBody ('\\' :: 'u' ::
                          hexDigitChar ((55296 + (c.toNat - 65536) / 1024) / 4096 % 16) ::
                          hexDigitChar ((55296 + (c.toNat - 65536) / 1024) / 256 % 16) ::
                          hexDigitChar ((55296 + (c.toNat - 65536) / 1024) / 16 % 16) ::
                          hexDigitChar ((55296 + (c.toNat - 65536) / 1024) % 16) :: '\\' :: 'u' ::
                          hexDigitChar ((56320 + (c.toNat - 65536) % 1024) / 4096 % 16) ::
                          hexDigitChar ((56320 + (c.toNat - 65536) % 1024) / 256 % 16) ::
                          hexDigitChar ((56320 + (c.toNat - 65536) % 1024) / 16 % 16) ::
                          hexDigitChar ((56320 + (c.toNat - 65536) % 1024) % 16) ::
                          (jsonEscape s' ++ '"' :: r)) = some (c :: s', r)
                      rw [parseStrBody_u2 _ _ _ _ _ _ _ _ _ (by rw [hv1]; omega), hv1, hv2,
                        ih r]
                      have hchar : 65536 + (c.toNat - 65536) / 1024 * 1024 +
                          (c.toNat - 65536) % 1024 = c.toNat := by
                        omega
                      simp [hchar, Char.ofNat_toNat]
                    · -- plain printable character
                      have hesc : jsonEscChar c = [c] := by
                        rw [jsonEscChar, if_neg h1, if_neg h2, if_neg h3, if_neg h4,
                          if_neg h5, if_neg h6, if_neg h7, if_neg h8, if_neg h9]
                      rw [hesc]
                      show parseStrBody (c :: (jsonEscape s' ++ '"' :: r)) = some (c :: s', r)
                      rw [parseStrBody_plain c _ h1 h2, ih r]
                      rfl

/-- The character for a single decimal digit. -/
def digitChar (n : Nat) : Char := Char.ofNat (48 + n)

/-- Decimal rendering of a nonnegative integer, as Python `str`/`json.dumps`
print it (fuel-based recursion; the fuel is always sufficient at the entry
point below). -/
def natToCharsAux : Nat → Nat → List Char
  | 0, _ => []
  | fuel + 1, n =>
    if n < 10 then [digitChar n]
    else natToCharsAux fuel (n / 10) ++ [digitChar (n % 10)]

def natToChars (n : Nat) : List Char := natToCharsAux (n + 1) n

theorem natToCharsAux_eq (n : Nat) :
    ∀ fuel, n < fuel → natToCharsAux fuel n = natToCharsAux (n + 1) n := by
  induction n using Nat.strong_induction_on with
  | _ n ih =>
    intro fuel hf
    match fuel, hf with
    | f + 1, hf =>
      show (if n < 10 then [digitChar n]
          else natToCharsAux f (n / 10) ++ [digitChar (n % 10)]) =
        (if n < 10 then [digitChar n]
          else natToCharsAux n (n / 10) ++ [digitChar (n % 10)])
      by_cases h : n < 10
      · rw [if_pos h, if_pos h]
      · rw [if_neg h, if_neg h]
        have hlt : n / 10 < n := Nat.div_lt_self (by omega) (by omega)
        rw [ih (n / 10) hlt f (by omega), ih (n / 10) hlt n (by omega)]

theorem natToChars_eq (n : Nat) :
    natToChars n = if n < 10 then [digitChar n]
      else natToChars (n / 10) ++ [digitChar (n % 10)] := by
  show (if n < 10 then [digitChar n]
      else natToCharsAux n (n / 10) ++ [digitChar (n % 10)]) = _
  by_cases h : n < 10
  · rw [if_pos h, if_pos h]
  · rw [if_neg h, if_neg h]
    have hlt : n / 10 < n := Nat.div_lt_self (by omega) (by omega)
    rw [natToCharsAux_eq (n / 10) n hlt]
    rfl

/-- Decimal-digit test (codepoints 48 to 57). -/
def isDig (c : Char) : Bool := 48 ≤ c.toNat && c.toNat ≤ 57

theorem digitChar_toNat (k : Nat) (h : k < 10) : (digitChar k).toNat = 48 + k := by
  interval_cases k <;> rfl

theorem natToChars_digits (n : Nat) : ∀ c ∈ natToChars n, isDig c = true := by
  induction n using Nat.strong_induction_on with
  | _ n ih =>
    rw [natToChars_eq]
    by_cases h : n < 10
    · rw [if_pos h]
      intro c hc
      simp at hc
      subst hc
      simp [isDig, digitChar_toNat n h]
      omega
    · rw [if_neg h]
      intro c hc
      rcases List.mem_append.mp hc with h1 | h1
      · exact ih (n / 10) (Nat.div_lt_self (by omega) (by omega)) c h1
      · simp at h1
        subst h1
        simp [isDig, digitChar_toNat (n % 10) (Nat.mod_lt n (by omega))]
        omega

/-- Value of a digit string under left-to-right accumulation. -/
def charsVal : Nat → List Char → Nat
  | acc, [] => acc
  | acc, c :: rest => charsVal (acc * 10 + (c.toNat - 48)) rest

theorem charsVal_append (l m : List Char) :
    ∀ acc, charsVal acc (l ++ m) = charsVal (charsVal acc l) m := by
  induction l with
  | nil => intro acc; rfl
  | cons c rest ih =>
    intro acc
    rw [List.cons_append]
    show charsVal (acc * 10 + (c.toNat - 48)) (rest ++ m) = _
    rw [ih]
    rfl

theorem charsVal_natToChars (n : Nat) :
    ∀ acc, charsVal acc (natToChars n) = acc * 10 ^ (natToChars n).length + n := by
  induction n using Nat.strong_induction_on with
  | _ n ih =>
    intro acc
    rw [natToChars_eq]
    by_cases h : n < 10
    · rw [if_pos h]
      have hd : (digitChar n).toNat = 48 + n := digitChar_toNat n h
      show acc * 10 + ((digitChar n).toNat - 48) =
        acc * 10 ^ ([digitChar n]).length + n
      rw [hd, List.length_singleton, pow_one]
      omega
    · rw [if_neg h]
      rw [charsVal_append]
      rw [ih (n / 10) (Nat.div_lt_self (by omega) (by omega)) acc]
      have hd : (digitChar (n % 10)).toNat = 48 + n % 10 :=
        digitChar_toNat _ (Nat.mod_lt n (by omega))
      show (acc * 10 ^ (natToChars (n / 10)).length + n / 10) * 10 +
          ((digitChar (n % 10)).toNat - 48) =
        acc * 10 ^ (natToChars (n / 10) ++ [digitChar (n % 10)]).length + n
      rw [hd, List.length_append, List.length_singleton, pow_succ, ← mul_assoc]
      omega

theorem natToChars_inj (d1 d2 : Nat) (h : natToChars d1 = natToChars d2) : d1 = d2 := by
  have h1 := charsVal_natToChars d1 0
  have h2 := charsVal_natToChars d2 0
  rw [h] at h1
  omega


theorem takeWhile_isDig_comma (l r : List Char) (hl : ∀ c ∈ l, isDig c = true) :
    (l ++ ',' :: r).takeWhile isDig = l := by
  induction l with
  | nil =>
    have hc : isDig ',' = false := rfl
    simp [List.takeWhile_cons, hc]
  | cons c rest ih =>
    have hc := hl c (by simp)
    simp only [List.cons_append, List.takeWhile_cons, hc, if_true]
    rw [ih (fun x hx => hl x (by simp [hx]))]

/-- Python `sorted` on a list of strings (lexicographic by code point). -/
def pySorted (l : List (List Char)) : List (List Char) := List.insertionSort (· ≤ ·) l

/-- Normalization `sorted(interests) if interests else []` from
`_create_content_cache_key`. -/
def interestsNorm (l : List (List Char)) : List (List Char) :=
  if l.isEmpty then [] else pySorted l

theorem pySorted_perm_eq (l1 l2 : List (List Char)) (h : l1.Perm l2) :
    pySorted l1 = pySorted l2 :=
  List.eq_of_perm_of_sorted
    ((List.perm_insertionSort _ l1).trans (h.trans (List.perm_insertionSort _ l2).symm))
    (List.sorted_insertionSort _ l1) (List.sorted_insertionSort _ l2)

theorem interestsNorm_eq_pySorted (l : List (List Char)) : interestsNorm l = pySorted l := by
  cases l with
  | nil => rfl
  | cons a t => rfl

/-- Rendering by `json.dumps` of a list of strings, tail part: `", "` separators
then the closing bracket. -/
def jsonStrArrayAux : List (List Char) → List Char
  | [] => [']']
  | s :: rest => ", ".data ++ (jsonStringLit s ++ jsonStrArrayAux rest)

/-- Rendering by `json.dumps` of a list of strings (default separators). -/
def jsonStrArray : List (List Char) → List Char
  | [] => "[]".data
  | s :: rest => '[' :: (jsonStringLit s ++ jsonStrArrayAux rest)

/-- The exact string `json.dumps(cache_data, sort_keys=True)` produces in
`_create_content_cache_key`: keys in alphabetical order (duration, interests,
language, location_id, location_name, narration_style, provider), default
separators `", "` and `": "`, `ensure_ascii` escapes; the `str`-mixin enum
`provider` serializes as its value string. -/
def cacheStr (location_id location_name : List Char) (interests : List (List Char))
    (duration : Nat) (language narration_style : List Char)
    (provider : LLMVendor) : List Char :=
  "\x7b\"duration\": ".data ++
    (natToChars duration ++
      (", \"interests\": ".data ++
        (jsonStrArray (interestsNorm interests) ++
          (", \"language\": ".data ++
            (jsonStringLit language ++
              (", \"location_id\": ".data ++
                (jsonStringLit location_id ++
                  (", \"location_name\": ".data ++
                    (jsonStringLit location_name ++
                      (", \"narration_style\": ".data ++
                        (jsonStringLit narration_style ++
                          (", \"provider\": ".data ++
                            (jsonStringLit (providerName provider) ++
                              "\x7d".data)))))))))))))

/-- Model of `AIService._create_content_cache_key`.  The MD5 digest of the serialized
payload comes from `hashlib` (an external library), so it is passed in as a
function parameter `md5hex`. -/
def create_content_cache_key (md5hex : List Char → List Char)
    (location_id location_name : List Char) (interests : List (List Char))
    (duration_minutes : Nat) (language narration_style : List Char)
    (provider : LLMVendor) : List Char :=
  "tour:content:".data ++
    md5hex (cacheStr location_id location_name interests duration_minutes
      language narration_style provider)

theorem cacheStr_sample :
    cacheStr "1".data "Eiffel".data ["b".data, "a".data] 30 "en".data "story".data .openai =
      ("\x7b\"duration\": 30, \"interests\": [\"a\", \"b\"], \"language\": \"en\"," ++
        " \"location_id\": \"1\", \"location_name\": \"Eiffel\"," ++
        " \"narration_style\": \"story\", \"provider\": \"openai\"\x7d").data := by
  decide

theorem jsonStringLit_append (l X : List Char) :
    jsonStringLit l ++ X = '"' :: (jsonEscape l ++ '"' :: X) := by
  simp [jsonStringLit]

theorem cacheStr_inj (lid lname : List Char) (i : List (List Char))
    (d1 d2 : Nat) (lang1 lang2 style : List Char) (p1 p2 : LLMVendor)
    (heq : cacheStr lid lname i d1 lang1 style p1 =
      cacheStr lid lname i d2 lang2 style p2) :
    d1 = d2 ∧ lang1 = lang2 ∧ p1 = p2 := by
  unfold cacheStr at heq
  simp only [jsonStringLit_append] at heq
  replace heq := List.append_cancel_left heq
  have hshape : ∀ T : List Char,
      ", \"interests\": ".data ++ T = ',' :: (" \"interests\": ".data ++ T) :=
    fun T => rfl
  rw [hshape, hshape] at heq
  have h1 := congrArg (List.takeWhile isDig) heq
  rw [takeWhile_isDig_comma _ _ (natToChars_digits d1),
    takeWhile_isDig_comma _ _ (natToChars_digits d2)] at h1
  have hd : d1 = d2 := natToChars_inj _ _ h1
  subst hd
  refine ⟨rfl, ?_⟩
  replace heq := List.append_cancel_left heq
  injection heq with hh heq
  replace heq := List.append_cancel_left heq
  replace heq := List.append_cancel_left heq
  replace heq := List.append_cancel_left heq
  injection heq with hh2 heq
  have h2 := congrArg parseStrBody heq
  rw [parseStrBody_escape lang1, parseStrBody_escape lang2] at h2
  injection h2 with h3
  injection h3 with hlang hrest
  refine ⟨hlang, ?_⟩
  replace hrest := List.append_cancel_left hrest
  injection hrest with hh3 hrest
  replace hrest := List.append_cancel_left hrest
  injection hrest with hh4 hrest
  replace hrest := List.append_cancel_left hrest
  injection hrest with hh5 hrest
  replace hrest := List.append_cancel_left hrest
  injection hrest with hh6 hrest
  replace hrest := List.append_cancel_left hrest
  injection hrest with hh7 hrest
  replace hrest := List.append_cancel_left hrest
  injection hrest with hh8 hrest
  replace hrest := List.append_cancel_left hrest
  injection hrest with hh9 hrest
  have h4 := congrArg parseStrBody hrest
  rw [parseStrBody_escape (providerName p1), parseStrBody_escape (providerName p2)] at h4
  injection h4 with h5
  injection h5 with hpn hrest2
  cases p1 <;> cases p2
  · rfl
  · exact absurd hpn (by decide)
  · exact absurd hpn (by decide)
  · rfl

/-- C3: for any two interest lists that are permutations of each other (all
other parameters equal), `_create_content_cache_key` returns the identical
cache key; and for any two inputs that differ in duration, language, or
provider (interests, location and style equal), it returns different keys,
the MD5 digest being modelled as an arbitrary injective function of the
serialized payload.  The key is a pure function of its normalized inputs. -/
theorem create_content_cache_key_correct
    (md5hex : List Char → List Char) (hinj : Function.Injective md5hex)
    (lid lname : List Char) (i1 i2 : List (List Char))
    (d1 d2 : Nat) (lang1 lang2 style : List Char) (p1 p2 : LLMVendor) :
    (i1.Perm i2 →
      create_content_cache_key md5hex lid lname i1 d1 lang1 style p1 =
        create_content_cache_key md5hex lid lname i2 d1 lang1 style p1)
    ∧ (create_content_cache_key md5hex lid lname i1 d1 lang1 style p1 =
        create_content_cache_key md5hex lid lname i1 d2 lang2 style p2 →
      d1 = d2 ∧ lang1 = lang2 ∧ p1 = p2) := by
  constructor
  · intro hperm
    unfold create_content_cache_key cacheStr
    rw [interestsNorm_eq_pySorted, interestsNorm_eq_pySorted,
      pySorted_perm_eq i1 i2 hperm]
  · intro heq
    exact cacheStr_inj lid lname i1 d1 d2 lang1 lang2 style p1 p2
      (hinj (List.append_cancel_left heq))

theorem create_content_cache_key_correct_witness :
    (create_content_cache_key (fun s => s) "1".data "Eiffel".data
        ["b".data, "a".data] 30 "en".data "story".data .openai =
      create_content_cache_key (fun s => s) "1".data "Eiffel".data
        ["a".data, "b".data] 30 "en".data "story".data .openai)
    ∧ create_content_cache_key (fun s => s) "1".data "Eiffel".data
        ["a".data, "b".data] 30 "en".data "story".data .openai ≠
      create_content_cache_key (fun s => s) "1".data "Eiffel".data
        ["a".data, "b".data] 60 "en".data "story".data .openai := by
  constructor
  · exact (create_content_cache_key_correct (fun s => s) (fun a b h => h)
      "1".data "Eiffel".data ["b".data, "a".data] ["a".data, "b".data] 30 30
      "en".data "en".data "story".data .openai .openai).1 (by decide)
  · intro hkey
    have h := (create_content_cache_key_correct (fun s => s) (fun a b h => h)
      "1".data "Eiffel".data ["a".data, "b".data] ["a".data, "b".data] 30 60
      "en".data "en".data "story".data .openai .openai).2 hkey
    exact absurd h.1 (by decide)
